import Mathlib

/-!
Shallow embedding of the recipe authoring workflow of the culinary-edem
repository (src/backend/src/recipes/serializers.py), together with the read
projection (`RecipeReadSerializer`) and the persistence steps performed by
`RecipeCreateSerializer.create` / `.update` / `.add_ingredients`.

The serializer framework semantics embedded here follow the standard
run_validation pipeline of the underlying REST framework: field-level
conversion and per-field validators run first and collect all field errors
(`to_internal_value`); only when no field error occurred does the
object-level `validate` method run.  Persistence (`create` / `update`) runs
only after validation succeeded.
-/

namespace Culinary

/-- Catalog entry of the Ingredient reference data (id, name, unit). -/
structure Ingredient where
  id : Nat
  name : String
  measurement_unit : String
deriving DecidableEq, Repr

/-- A RecipeIngredientLink row (model `IngredientRecipe`): one recipe,
one ingredient, one amount. -/
structure IngredientRecipe where
  recipe : Nat
  ingredient : Nat
  amount : Int
deriving DecidableEq, Repr

/-- A persisted Recipe row, with its many-to-many tag set inlined. -/
structure Recipe where
  id : Nat
  author : Nat
  name : String
  image : String
  text : String
  cooking_time : Int
  tags : List Nat
deriving DecidableEq, Repr

/-- The persistent state visible to the workflow: the two reference
catalogs, the recipe and link tables, the favorites / shopping-cart
relations (keyed by user × recipe), and the id the next created recipe
receives. -/
structure DB where
  ingredientCatalog : List Ingredient
  tagCatalog : List Nat
  recipes : List Recipe
  links : List IngredientRecipe
  favorites : List (Nat × Nat)
  carts : List (Nat × Nat)
  nextRecipeId : Nat
deriving DecidableEq, Repr

/-- Resolution of an ingredient identifier in the Ingredient catalog
(`PrimaryKeyRelatedField(queryset=Ingredient.objects.all())`). -/
def DB.findIngredient (db : DB) (i : Nat) : Option Ingredient :=
  db.ingredientCatalog.find? (fun x => x.id == i)

/-- One raw entry of the payload's "ingredients" list: `{"id": .., "amount": ..}`. -/
structure RawIngredient where
  id : Nat
  amount : Int
deriving DecidableEq, Repr

/-- An incoming payload.  A `none` field is a key absent from the JSON
object (`initial_data`). -/
structure Payload where
  name : Option String
  image : Option String
  text : Option String
  cooking_time : Option Int
  tags : Option (List Nat)
  ingredients : Option (List RawIngredient)
deriving DecidableEq, Repr

/-- The validation errors the workflow can surface. -/
inductive VError where
  | missingField (f : String)
  | ingredientNotFound (id : Nat)
  | invalidAmount
  | tagNotFound (id : Nat)
  | duplicateIngredient
  | invalidDuration
deriving DecidableEq, Repr

/-- Field-level errors of one entry of the nested ingredients serializer
(`IngredientCreateSerializer`): the `id` field fails when the identifier
does not resolve in the catalog, and `validate_amount` fails when
`value < 1`.  Both checks run and both errors are collected. -/
def ingredientFieldErrors (db : DB) (e : RawIngredient) : List VError :=
  (match db.findIngredient e.id with
    | none => [.ingredientNotFound e.id]
    | some _ => [])
  ++ (if e.amount < 1 then [.invalidAmount] else [])

/-- Field errors collected over the whole ingredients list. -/
def ingredientsErrors (db : DB) : List RawIngredient → List VError
  | [] => []
  | e :: rest => ingredientFieldErrors db e ++ ingredientsErrors db rest

/-- Field errors of the `tags` field: each identifier must resolve in the
Tag catalog (`PrimaryKeyRelatedField(queryset=Tag.objects.all(), many=True)`). -/
def tagsErrors (db : DB) : List Nat → List VError
  | [] => []
  | t :: rest =>
      (if db.tagCatalog.contains t then [] else [.tagNotFound t]) ++ tagsErrors db rest

/-- Required-field errors raised by `to_internal_value` on a non-partial
(create) request for every writable field absent from the payload. -/
def requiredErrors (p : Payload) : List VError :=
  (if p.name.isNone then [.missingField "name"] else [])
  ++ (if p.image.isNone then [.missingField "image"] else [])
  ++ (if p.text.isNone then [.missingField "text"] else [])
  ++ (if p.cooking_time.isNone then [.missingField "cooking_time"] else [])
  ++ (if p.tags.isNone then [.missingField "tags"] else [])
  ++ (if p.ingredients.isNone then [.missingField "ingredients"] else [])

/-- All field-level errors of a payload (`to_internal_value`): required
checks on create (`isPartial = false` for create, `true` for a partial
update), then errors of the present `ingredients` and `tags` lists. -/
def fieldPhase (db : DB) (p : Payload) (isPartial : Bool) : List VError :=
  (if isPartial then [] else requiredErrors p)
  ++ ingredientsErrors db (p.ingredients.getD [])
  ++ tagsErrors db (p.tags.getD [])

/-- Outcome of the object-level `validate` method: success, a raised
`ValidationError`, or an uncaught runtime exception (`TypeError` from
iterating `None`, `KeyError` from indexing a missing key). -/
inductive ValidateResult where
  | ok
  | err (e : VError)
  | crash
deriving DecidableEq, Repr

/-- The duplicate-scan loop of `RecipeCreateSerializer.validate`: walks the
identifier list, raising on the first identifier already seen. -/
def checkDuplicates : List Nat → List Nat → Bool
  | [], _ => false
  | i :: rest, seen =>
      if seen.contains i then true else checkDuplicates rest (i :: seen)

/-- `RecipeCreateSerializer.validate` (lines 126-137): iterates
`initial_data.get('ingredients')` checking for a repeated identifier
(`TypeError` crash when the key is absent, since `None` is not iterable),
then checks `data['cooking_time'] < 1` (`KeyError` crash when the key is
absent from the validated data). -/
def validateObj (p : Payload) : ValidateResult :=
  match p.ingredients with
  | none => .crash
  | some ings =>
    if checkDuplicates (ings.map RawIngredient.id) [] then
      .err .duplicateIngredient
    else
      match p.cooking_time with
      | none => .crash
      | some ct => if ct < 1 then .err .invalidDuration else .ok

/-- A validated entry of the ingredients list: the resolved catalog object
(the `id` field has `source='ingredient'`) plus the amount. -/
structure ValidIngredient where
  ingredient : Ingredient
  amount : Int
deriving DecidableEq, Repr

/-- Resolution of the whole raw list into validated entries; `none` when
some identifier does not resolve. -/
def resolveIngredients (db : DB) : List RawIngredient → Option (List ValidIngredient)
  | [] => some []
  | e :: rest =>
    match db.findIngredient e.id, resolveIngredients db rest with
    | some ing, some vis => some (⟨ing, e.amount⟩ :: vis)
    | _, _ => none

/-- Result of running a whole validation pass: the collected field errors,
the single object-level error, an uncaught exception, or validated data. -/
inductive Outcome (α : Type) where
  | fieldErrs (es : List VError)
  | objErr (e : VError)
  | crash
  | ok (v : α)
deriving DecidableEq, Repr

/-- The validated data of a create request (all fields required). -/
structure CreateData where
  name : String
  image : String
  text : String
  cooking_time : Int
  tags : List Nat
  ingredients : List ValidIngredient
deriving DecidableEq, Repr

/-- The validated data of a partial update (only present fields). -/
structure UpdateData where
  name : Option String
  image : Option String
  text : Option String
  cooking_time : Option Int
  tags : Option (List Nat)
  ingredients : Option (List ValidIngredient)
deriving DecidableEq, Repr

/-- The stage of a create request after field conversion succeeded: all
required fields present, ingredients resolved, then the object-level
`validate` method decides the outcome. -/
def createObjectStage (db : DB) (p : Payload) : Outcome CreateData :=
  match p.name with
    | none => .crash
    | some nm =>
    match p.image with
    | none => .crash
    | some im =>
    match p.text with
    | none => .crash
    | some tx =>
    match p.cooking_time with
    | none => .crash
    | some ct =>
    match p.tags with
    | none => .crash
    | some tg =>
    match p.ingredients with
    | none => .crash
    | some ings =>
    match resolveIngredients db ings with
    | none => .crash
    | some vis =>
      match validateObj p with
      | .ok => .ok ⟨nm, im, tx, ct, tg, vis⟩
      | .err e => .objErr e
      | .crash => .crash

/-- `run_validation` for a create request: field conversion and validators
first (collecting every field error), then the object-level stage. -/
def runCreateValidation (db : DB) (p : Payload) : Outcome CreateData :=
  match fieldPhase db p false with
  | e :: es => .fieldErrs (e :: es)
  | [] => createObjectStage db p

/-- The stage of a partial update after field conversion succeeded: fields
absent from the payload stay absent from the validated data. -/
def updateObjectStage (db : DB) (p : Payload) : Outcome UpdateData :=
  match p.ingredients with
    | none =>
      match validateObj p with
      | .ok => .ok ⟨p.name, p.image, p.text, p.cooking_time, p.tags, none⟩
      | .err e => .objErr e
      | .crash => .crash
    | some ings =>
      match resolveIngredients db ings with
      | none => .crash
      | some vis =>
        match validateObj p with
        | .ok => .ok ⟨p.name, p.image, p.text, p.cooking_time, p.tags, some vis⟩
        | .err e => .objErr e
        | .crash => .crash

/-- `run_validation` for a partial update: field conversion and validators
first (collecting every field error), then the object-level stage. -/
def runUpdateValidation (db : DB) (p : Payload) : Outcome UpdateData :=
  match fieldPhase db p true with
  | e :: es => .fieldErrs (e :: es)
  | [] => updateObjectStage db p

/-- The link row built by `add_ingredients` for one validated entry. -/
def mkLink (rid : Nat) (vi : ValidIngredient) : IngredientRecipe :=
  ⟨rid, vi.ingredient.id, vi.amount⟩

/-- `RecipeCreateSerializer.add_ingredients`: bulk-creates one
`IngredientRecipe` row per validated entry. -/
def add_ingredients (db : DB) (rid : Nat) (ings : List ValidIngredient) : DB :=
  { db with links := db.links ++ ings.map (mkLink rid) }

/-- `RecipeCreateSerializer.create`: creates the Recipe row with the
requesting user as author, then the ingredient-link batch, then sets the
tag set. -/
def createRecipe (db : DB) (author : Nat) (v : CreateData) : DB × Recipe :=
  let r : Recipe :=
    ⟨db.nextRecipeId, author, v.name, v.image, v.text, v.cooking_time, v.tags⟩
  let db1 : DB :=
    { db with recipes := db.recipes ++ [r], nextRecipeId := db.nextRecipeId + 1 }
  (add_ingredients db1 r.id v.ingredients, r)

/-- `RecipeCreateSerializer.update`: when "ingredients" is present, deletes
every existing link of the instance and inserts the new batch; when "tags"
is present, replaces the tag set; then the base update replaces each
present scalar field. -/
def updateRecipe (db : DB) (inst : Recipe) (v : UpdateData) : DB × Recipe :=
  let db1 : DB :=
    match v.ingredients with
    | some ings =>
        { db with links :=
            db.links.filter (fun l => l.recipe != inst.id) ++ ings.map (mkLink inst.id) }
    | none => db
  let inst1 : Recipe :=
    { inst with
        tags := (v.tags).getD inst.tags,
        name := (v.name).getD inst.name,
        image := (v.image).getD inst.image,
        text := (v.text).getD inst.text,
        cooking_time := (v.cooking_time).getD inst.cooking_time }
  let db2 : DB :=
    { db1 with recipes := db1.recipes.map (fun x => if x.id == inst.id then inst1 else x) }
  (db2, inst1)

/-- One rendered ingredient entry of the read view
(`IngredientRecipeSerializer`): catalog id, name and unit plus the link's
amount. -/
structure IngredientView where
  id : Nat
  name : String
  measurement_unit : String
  amount : Int
deriving DecidableEq, Repr

/-- The Reference Projection of one recipe (`RecipeReadSerializer`). -/
structure RecipeView where
  id : Nat
  tags : List Nat
  author : Nat
  ingredients : List IngredientView
  is_favorited : Bool
  is_in_shopping_cart : Bool
  name : String
  image : String
  text : String
  cooking_time : Int
deriving DecidableEq, Repr

/-- Modelled from the spec: `get_boolean_value` (src/base/utils.py, a file
of this repository not present under src/) computes a viewer-relative flag
by a membership lookup keyed by (viewer, recipe); with no authenticated
viewer the flag defaults to false. -/
def get_boolean_value (rel : List (Nat × Nat)) (viewer : Option Nat) (rid : Nat) : Bool :=
  match viewer with
  | none => false
  | some u => rel.contains (u, rid)

/-- Rendering of one link row; the link's foreign key always resolves in
the catalog for persisted data, the fallback mirrors nothing observable. -/
def ingredientRecipeView (db : DB) (l : IngredientRecipe) : IngredientView :=
  match db.findIngredient l.ingredient with
  | some ing => ⟨ing.id, ing.name, ing.measurement_unit, l.amount⟩
  | none => ⟨l.ingredient, "", "", l.amount⟩

/-- `RecipeReadSerializer` applied to a recipe: flattened tags and author,
the rendered link rows of this recipe (`get_ingredients` filters the link
table by recipe), and the two viewer-relative flags. -/
def recipeReadView (db : DB) (viewer : Option Nat) (r : Recipe) : RecipeView :=
  { id := r.id
    tags := r.tags
    author := r.author
    ingredients := (db.links.filter (fun l => l.recipe == r.id)).map (ingredientRecipeView db)
    is_favorited := get_boolean_value db.favorites viewer r.id
    is_in_shopping_cart := get_boolean_value db.carts viewer r.id
    name := r.name
    image := r.image
    text := r.text
    cooking_time := r.cooking_time }

/-- The full create workflow: validate, persist only on success, and
render the result through the read projection (`to_representation`). -/
def createWorkflow (db : DB) (user : Nat) (p : Payload) : Outcome RecipeView × DB :=
  match runCreateValidation db p with
  | .ok v =>
      let res := createRecipe db user v
      (.ok (recipeReadView res.1 (some user) res.2), res.1)
  | .fieldErrs es => (.fieldErrs es, db)
  | .objErr e => (.objErr e, db)
  | .crash => (.crash, db)

/-- The full (partial) update workflow on a fetched instance. -/
def updateWorkflow (db : DB) (user : Nat) (inst : Recipe) (p : Payload) :
    Outcome RecipeView × DB :=
  match runUpdateValidation db p with
  | .ok v =>
      let res := updateRecipe db inst v
      (.ok (recipeReadView res.1 (some user) res.2), res.1)
  | .fieldErrs es => (.fieldErrs es, db)
  | .objErr e => (.objErr e, db)
  | .crash => (.crash, db)

/-! ### Concrete fixtures used for witnesses and counterexamples -/

/-- A one-entry Ingredient catalog: id 3 is Sugar, measured in grams. -/
def sugar : Ingredient := ⟨3, "Sugar", "g"⟩

/-- A store with the Sugar catalog entry, tag 1, and no recipes yet. -/
def db0 : DB := ⟨[sugar], [1], [], [], [], [], 1⟩

/-- A recipe already persisted in `db1`, authored by user 7. -/
def tea : Recipe := ⟨0, 7, "Tea", "img", "desc", 5, [1]⟩

/-- A store holding `tea` with one ingredient link (Sugar, amount 2). -/
def db1 : DB := ⟨[sugar], [1], [tea], [⟨0, 3, 2⟩], [], [], 1⟩

/-- A valid create payload: one ingredient (id 3, amount 2). -/
def pGood : Payload :=
  ⟨some "Tea", some "img", some "desc", some 5, some [1], some [⟨3, 2⟩]⟩

/-- The validated data `pGood` produces. -/
def vGood : CreateData := ⟨"Tea", "img", "desc", 5, [1], [⟨sugar, 2⟩]⟩

/-- A payload repeating ingredient id 3, the first entry with amount 0. -/
def pDup : Payload :=
  ⟨some "Tea", some "img", some "desc", some 5, some [1], some [⟨3, 0⟩, ⟨3, 2⟩]⟩

/-- A payload repeating ingredient id 3 (valid amounts) with cooking_time 0. -/
def pDupZero : Payload :=
  ⟨some "Tea", some "img", some "desc", some 0, some [1], some [⟨3, 2⟩, ⟨3, 1⟩]⟩

/-- A partial-update payload carrying only "name". -/
def pNameOnly : Payload := ⟨some "New", none, none, none, none, none⟩

/-- A payload referencing ingredient id 9, absent from the catalog. -/
def pBadIng : Payload :=
  ⟨some "Tea", some "img", some "desc", some 5, some [1], some [⟨9, 2⟩]⟩

/-- A valid update payload replacing the ingredient list with id 3, amount 7. -/
def pNewIngs : Payload :=
  ⟨some "Tea", none, none, some 4, none, some [⟨3, 7⟩]⟩

/-- The validated data `pNewIngs` produces on a partial update. -/
def vNew : UpdateData := ⟨some "Tea", none, none, some 4, none, some [⟨sugar, 7⟩]⟩

/-- A payload valid except for cooking_time 0. -/
def pZeroTime : Payload :=
  ⟨some "Tea", some "img", some "desc", some 0, some [1], some [⟨3, 2⟩]⟩

/-! ### Helper lemmas -/

theorem contains_true_iff (l : List Nat) (a : Nat) : l.contains a = true ↔ a ∈ l := by
  simp [List.contains, List.elem_iff]

theorem checkDuplicates_false_iff (l : List Nat) :
    ∀ seen : List Nat,
      checkDuplicates l seen = false ↔ l.Nodup ∧ ∀ x ∈ l, x ∉ seen := by
  induction l with
  | nil => intro seen; simp [checkDuplicates]
  | cons i rest ih =>
    intro seen
    simp only [checkDuplicates]
    by_cases h : i ∈ seen
    · rw [if_pos ((contains_true_iff seen i).mpr h)]
      constructor
      · intro hfalse; cases hfalse
      · rintro ⟨-, hall⟩
        exact absurd h (hall i (by simp))
    · rw [if_neg (fun hc => h ((contains_true_iff seen i).mp hc))]
      rw [ih (i :: seen)]
      constructor
      · rintro ⟨hnd, hall⟩
        refine ⟨List.nodup_cons.mpr ⟨fun hmem => ?_, hnd⟩, ?_⟩
        · exact (hall _ hmem) (by simp)
        · intro x hx
          rcases List.mem_cons.mp hx with rfl | hx
          · exact h
          · intro hxs; exact (hall x hx) (by simp [hxs])
      · rintro ⟨hnd, hall⟩
        rcases List.nodup_cons.mp hnd with ⟨hni, hnd'⟩
        refine ⟨hnd', fun x hx hxs => ?_⟩
        rcases List.mem_cons.mp hxs with rfl | hxs
        · exact hni hx
        · exact (hall x (by simp [hx])) hxs

theorem findIngredient_id {db : DB} {i : Nat} {ing : Ingredient}
    (h : db.findIngredient i = some ing) : ing.id = i := by
  have := List.find?_some h
  simpa using this

theorem resolveIngredients_ids_amounts {db : DB} :
    ∀ {l : List RawIngredient} {vis : List ValidIngredient},
      resolveIngredients db l = some vis →
      vis.map (fun vi => (vi.ingredient.id, vi.amount)) =
        l.map (fun e => (e.id, e.amount)) := by
  intro l
  induction l with
  | nil =>
    intro vis h
    simp only [resolveIngredients, Option.some.injEq] at h
    subst h; rfl
  | cons e rest ih =>
    intro vis h
    simp only [resolveIngredients] at h
    cases hf : db.findIngredient e.id with
    | none =>
      rw [hf] at h
      cases hr : resolveIngredients db rest <;> rw [hr] at h <;> cases h
    | some ing =>
      rw [hf] at h
      cases hr : resolveIngredients db rest with
      | none => rw [hr] at h; cases h
      | some vis' =>
        rw [hr] at h
        simp only [Option.some.injEq] at h
        subst h
        simp [ih hr, findIngredient_id hf]

theorem resolveIngredients_mem_find {db : DB} :
    ∀ {l : List RawIngredient} {vis : List ValidIngredient},
      resolveIngredients db l = some vis →
      ∀ vi ∈ vis, db.findIngredient vi.ingredient.id = some vi.ingredient := by
  intro l
  induction l with
  | nil =>
    intro vis h vi hvi
    simp only [resolveIngredients, Option.some.injEq] at h
    subst h; cases hvi
  | cons e rest ih =>
    intro vis h vi hvi
    simp only [resolveIngredients] at h
    cases hf : db.findIngredient e.id with
    | none =>
      rw [hf] at h
      cases hr : resolveIngredients db rest <;> rw [hr] at h <;> cases h
    | some ing =>
      rw [hf] at h
      cases hr : resolveIngredients db rest with
      | none => rw [hr] at h; cases h
      | some vis' =>
        rw [hr] at h
        simp only [Option.some.injEq] at h
        subst h
        rcases List.mem_cons.mp hvi with rfl | hvi'
        · simpa [findIngredient_id hf] using hf
        · exact ih hr vi hvi'

theorem ingredientsErrors_nil_resolve {db : DB} :
    ∀ {l : List RawIngredient}, ingredientsErrors db l = [] →
      ∃ vis, resolveIngredients db l = some vis := by
  intro l
  induction l with
  | nil => intro _; exact ⟨[], rfl⟩
  | cons e rest ih =>
    intro h
    simp only [ingredientsErrors, ingredientFieldErrors, List.append_eq_nil] at h
    rcases h with ⟨⟨h1, -⟩, h2⟩
    cases hf : db.findIngredient e.id with
    | none => rw [hf] at h1; simp at h1
    | some ing =>
      rcases ih h2 with ⟨vis, hr⟩
      exact ⟨⟨ing, e.amount⟩ :: vis, by simp [resolveIngredients, hf, hr]⟩

theorem invalidAmount_mem_ingredientFieldErrors {db : DB} {e : RawIngredient} :
    VError.invalidAmount ∈ ingredientFieldErrors db e ↔ e.amount < 1 := by
  unfold ingredientFieldErrors
  cases hf : db.findIngredient e.id <;> by_cases ha : e.amount < 1 <;> simp [ha]

theorem invalidAmount_mem_ingredientsErrors {db : DB} :
    ∀ {l : List RawIngredient},
      VError.invalidAmount ∈ ingredientsErrors db l ↔ ∃ e ∈ l, e.amount < 1 := by
  intro l
  induction l with
  | nil => simp [ingredientsErrors]
  | cons e rest ih =>
    simp only [ingredientsErrors, List.mem_append,
      invalidAmount_mem_ingredientFieldErrors, ih]
    constructor
    · rintro (h | ⟨e', he', ha⟩)
      · exact ⟨e, by simp, h⟩
      · exact ⟨e', by simp [he'], ha⟩
    · rintro ⟨e', he', ha⟩
      rcases List.mem_cons.mp he' with rfl | he'
      · exact Or.inl ha
      · exact Or.inr ⟨e', he', ha⟩

theorem tagsErrors_shape {db : DB} :
    ∀ {l : List Nat} {e : VError}, e ∈ tagsErrors db l → ∃ t, e = .tagNotFound t := by
  intro l
  induction l with
  | nil => intro e h; cases h
  | cons t rest ih =>
    intro e h
    rw [tagsErrors] at h
    rcases List.mem_append.mp h with h | h
    · split at h
      · cases h
      · exact ⟨t, by simpa using h⟩
    · exact ih h

theorem requiredErrors_shape {p : Payload} {e : VError} (h : e ∈ requiredErrors p) :
    ∃ f, e = .missingField f := by
  simp only [requiredErrors, List.mem_append] at h
  rcases h with ((((h | h) | h) | h) | h) | h <;> (split at h <;> simp_all)

theorem ingredientsErrors_shape {db : DB} :
    ∀ {l : List RawIngredient} {e : VError}, e ∈ ingredientsErrors db l →
      e = .invalidAmount ∨ ∃ i, e = .ingredientNotFound i := by
  intro l
  induction l with
  | nil => intro e h; cases h
  | cons x rest ih =>
    intro e h
    rw [ingredientsErrors] at h
    rcases List.mem_append.mp h with h | h
    · unfold ingredientFieldErrors at h
      rcases List.mem_append.mp h with h | h
      · cases hf : db.findIngredient x.id <;> rw [hf] at h
        · exact Or.inr ⟨x.id, by simpa using h⟩
        · cases h
      · split at h
        · exact Or.inl (by simpa using h)
        · cases h
    · exact ih h

theorem invalidAmount_mem_fieldPhase {db : DB} {p : Payload} {prt : Bool} :
    VError.invalidAmount ∈ fieldPhase db p prt ↔
      ∃ e ∈ p.ingredients.getD [], e.amount < 1 := by
  simp only [fieldPhase, List.mem_append]
  constructor
  · rintro ((h | h) | h)
    · cases prt with
      | false =>
        simp only [Bool.false_eq_true, if_false] at h
        rcases requiredErrors_shape h with ⟨f, hf⟩
        cases hf
      | true => simp at h
    · exact invalidAmount_mem_ingredientsErrors.mp h
    · rcases tagsErrors_shape h with ⟨t, ht⟩
      cases ht
  · intro h
    exact Or.inl (Or.inr (invalidAmount_mem_ingredientsErrors.mpr h))

theorem append_eq_nil_parts {α : Type} {a b : List α} (h : a ++ b = []) :
    a = [] ∧ b = [] := by
  cases a with
  | nil => exact ⟨rfl, h⟩
  | cons x xs => cases h

theorem opt_of_ite_nil {α : Type} {o : Option α} {x : VError}
    (h : (if o.isNone then [x] else []) = []) : ∃ a, o = some a := by
  cases o with
  | none => simp at h
  | some a => exact ⟨a, rfl⟩

theorem requiredErrors_nil {p : Payload} (h : requiredErrors p = []) :
    (∃ a, p.name = some a) ∧ (∃ a, p.image = some a) ∧ (∃ a, p.text = some a) ∧
      (∃ a, p.cooking_time = some a) ∧ (∃ a, p.tags = some a) ∧
      (∃ a, p.ingredients = some a) := by
  unfold requiredErrors at h
  obtain ⟨h, h6⟩ := append_eq_nil_parts h
  obtain ⟨h, h5⟩ := append_eq_nil_parts h
  obtain ⟨h, h4⟩ := append_eq_nil_parts h
  obtain ⟨h, h3⟩ := append_eq_nil_parts h
  obtain ⟨h1, h2⟩ := append_eq_nil_parts h
  exact ⟨opt_of_ite_nil h1, opt_of_ite_nil h2, opt_of_ite_nil h3,
    opt_of_ite_nil h4, opt_of_ite_nil h5, opt_of_ite_nil h6⟩

theorem fieldPhase_nil_parts {db : DB} {p : Payload} {prt : Bool}
    (h : fieldPhase db p prt = []) :
    (prt = false → requiredErrors p = []) ∧
      ingredientsErrors db (p.ingredients.getD []) = [] ∧
      tagsErrors db (p.tags.getD []) = [] := by
  unfold fieldPhase at h
  obtain ⟨h, h3⟩ := append_eq_nil_parts h
  obtain ⟨h1, h2⟩ := append_eq_nil_parts h
  refine ⟨?_, h2, h3⟩
  intro hprt
  rw [hprt] at h1
  simpa using h1

theorem checkDuplicates_nil_false_iff (l : List Nat) :
    checkDuplicates l [] = false ↔ l.Nodup := by
  rw [checkDuplicates_false_iff]
  simp

theorem validateObj_ok_inv {p : Payload} (h : validateObj p = .ok) :
    ∃ ings ct, p.ingredients = some ings ∧ p.cooking_time = some ct ∧
      (ings.map RawIngredient.id).Nodup ∧ ¬ct < 1 := by
  unfold validateObj at h
  split at h
  · cases h
  next ings hing =>
    split at h
    · cases h
    next hcd =>
      split at h
      · cases h
      next ct hct =>
        split at h
        · cases h
        next hlt =>
          exact ⟨ings, ct, hing, hct,
            (checkDuplicates_nil_false_iff _).mp (by simpa using hcd), hlt⟩

theorem validateObj_dup {p : Payload} {ings : List RawIngredient}
    (hing : p.ingredients = some ings)
    (hdup : ¬(ings.map RawIngredient.id).Nodup) :
    validateObj p = .err .duplicateIngredient := by
  have hcd : checkDuplicates (ings.map RawIngredient.id) [] = true := by
    cases hc : checkDuplicates (ings.map RawIngredient.id) [] with
    | false => exact absurd ((checkDuplicates_nil_false_iff _).mp hc) hdup
    | true => rfl
  unfold validateObj
  rw [hing]
  simp [hcd]

theorem validateObj_eval {p : Payload} {ings : List RawIngredient} {ct : Int}
    (hing : p.ingredients = some ings) (hct : p.cooking_time = some ct)
    (hnd : (ings.map RawIngredient.id).Nodup) :
    validateObj p = if ct < 1 then .err .invalidDuration else .ok := by
  unfold validateObj
  rw [hing]
  simp only [(checkDuplicates_nil_false_iff (ings.map RawIngredient.id)).mpr hnd,
    Bool.false_eq_true, if_false]
  rw [hct]

theorem runCreateValidation_ok_inv {db : DB} {p : Payload} {v : CreateData}
    (h : runCreateValidation db p = .ok v) :
    fieldPhase db p false = [] ∧ p.name = some v.name ∧ p.image = some v.image ∧
      p.text = some v.text ∧ p.cooking_time = some v.cooking_time ∧
      p.tags = some v.tags ∧
      ∃ ings, p.ingredients = some ings ∧
        resolveIngredients db ings = some v.ingredients ∧ validateObj p = .ok := by
  unfold runCreateValidation createObjectStage at h
  split at h
  next e es hfp => cases h
  next hfp =>
    split at h
    next hn => cases h
    next nm hn =>
      split at h
      next him => cases h
      next im him =>
        split at h
        next htx => cases h
        next tx htx =>
          split at h
          next hct => cases h
          next ct hct =>
            split at h
            next htg => cases h
            next tg htg =>
              split at h
              next hing => cases h
              next ings hing =>
                split at h
                next hr => cases h
                next vis hr =>
                  split at h
                  next hv =>
                    cases h
                    exact ⟨hfp, hn, him, htx, hct, htg, ings, hing, hr, hv⟩
                  next e hv => cases h
                  next hv => cases h

theorem runUpdateValidation_ok_inv {db : DB} {p : Payload} {v : UpdateData}
    (h : runUpdateValidation db p = .ok v) :
    fieldPhase db p true = [] ∧ v.name = p.name ∧ v.image = p.image ∧
      v.text = p.text ∧ v.cooking_time = p.cooking_time ∧ v.tags = p.tags ∧
      validateObj p = .ok ∧
      ∃ ings vis, p.ingredients = some ings ∧
        resolveIngredients db ings = some vis ∧ v.ingredients = some vis := by
  unfold runUpdateValidation updateObjectStage at h
  split at h
  next e es hfp => cases h
  next hfp =>
    split at h
    next hing =>
      have hv : validateObj p = .crash := by unfold validateObj; rw [hing]
      rw [hv] at h
      cases h
    next ings hing =>
      split at h
      next hr => cases h
      next vis hr =>
        split at h
        next hv =>
          cases h
          exact ⟨hfp, rfl, rfl, rfl, rfl, rfl, hv, ings, vis, hing, hr, rfl⟩
        next e hv => cases h
        next hv => cases h

theorem runCreateValidation_dup {db : DB} {p : Payload} {ings : List RawIngredient}
    (hfp : fieldPhase db p false = []) (hing : p.ingredients = some ings)
    (hdup : ¬(ings.map RawIngredient.id).Nodup) :
    runCreateValidation db p = .objErr .duplicateIngredient := by
  obtain ⟨hreq, hie, -⟩ := fieldPhase_nil_parts hfp
  obtain ⟨⟨nm, hn⟩, ⟨im, him⟩, ⟨tx, htx⟩, ⟨ct, hct⟩, ⟨tg, htg⟩, -⟩ :=
    requiredErrors_nil (hreq rfl)
  rw [hing] at hie
  obtain ⟨vis, hr⟩ := ingredientsErrors_nil_resolve (by simpa using hie)
  have hv := validateObj_dup hing hdup
  obtain ⟨pn, pi, pt, pct, ptg, ping⟩ := p
  dsimp only at hn him htx hct htg hing
  subst hn him htx hct htg hing
  simp only [runCreateValidation, createObjectStage, hfp, hr, hv]

theorem runUpdateValidation_dup {db : DB} {p : Payload} {ings : List RawIngredient}
    (hfp : fieldPhase db p true = []) (hing : p.ingredients = some ings)
    (hdup : ¬(ings.map RawIngredient.id).Nodup) :
    runUpdateValidation db p = .objErr .duplicateIngredient := by
  obtain ⟨-, hie, -⟩ := fieldPhase_nil_parts hfp
  rw [hing] at hie
  obtain ⟨vis, hr⟩ := ingredientsErrors_nil_resolve (by simpa using hie)
  have hv := validateObj_dup hing hdup
  obtain ⟨pn, pi, pt, pct, ptg, ping⟩ := p
  dsimp only at hing
  subst hing
  simp only [runUpdateValidation, updateObjectStage, hfp, hr, hv]

theorem createObjectStage_ne_fieldErrs (db : DB) (p : Payload) (es : List VError) :
    createObjectStage db p ≠ .fieldErrs es := by
  intro h
  unfold createObjectStage at h
  (repeat' split at h) <;> cases h

theorem updateObjectStage_ne_fieldErrs (db : DB) (p : Payload) (es : List VError) :
    updateObjectStage db p ≠ .fieldErrs es := by
  intro h
  unfold updateObjectStage at h
  (repeat' split at h) <;> cases h

theorem runCreateValidation_fieldErrs_inv {db : DB} {p : Payload} {es : List VError}
    (h : runCreateValidation db p = .fieldErrs es) : fieldPhase db p false = es := by
  unfold runCreateValidation at h
  split at h
  next e es' hfp =>
    cases h
    exact hfp
  next hfp => exact absurd h (createObjectStage_ne_fieldErrs db p es)

theorem runUpdateValidation_fieldErrs_inv {db : DB} {p : Payload} {es : List VError}
    (h : runUpdateValidation db p = .fieldErrs es) : fieldPhase db p true = es := by
  unfold runUpdateValidation at h
  split at h
  next e es' hfp =>
    cases h
    exact hfp
  next hfp => exact absurd h (updateObjectStage_ne_fieldErrs db p es)

theorem runCreateValidation_fieldErrs_fwd {db : DB} {p : Payload} {e : VError}
    {es : List VError} (hfp : fieldPhase db p false = e :: es) :
    runCreateValidation db p = .fieldErrs (e :: es) := by
  unfold runCreateValidation
  rw [hfp]

theorem runUpdateValidation_fieldErrs_fwd {db : DB} {p : Payload} {e : VError}
    {es : List VError} (hfp : fieldPhase db p true = e :: es) :
    runUpdateValidation db p = .fieldErrs (e :: es) := by
  unfold runUpdateValidation
  rw [hfp]

theorem createWorkflow_ok {db : DB} {u : Nat} {p : Payload} {v : CreateData}
    (h : runCreateValidation db p = .ok v) :
    createWorkflow db u p =
      (.ok (recipeReadView (createRecipe db u v).1 (some u) (createRecipe db u v).2),
        (createRecipe db u v).1) := by
  unfold createWorkflow
  rw [h]

theorem createWorkflow_not_ok {db : DB} {u : Nat} {p : Payload}
    (h : ∀ v, runCreateValidation db p ≠ .ok v) :
    (createWorkflow db u p).2 = db := by
  unfold createWorkflow
  split
  next v hv => exact absurd hv (h v)
  all_goals rfl

theorem updateWorkflow_ok {db : DB} {u : Nat} {inst : Recipe} {p : Payload}
    {v : UpdateData} (h : runUpdateValidation db p = .ok v) :
    updateWorkflow db u inst p =
      (.ok (recipeReadView (updateRecipe db inst v).1 (some u) (updateRecipe db inst v).2),
        (updateRecipe db inst v).1) := by
  unfold updateWorkflow
  rw [h]

theorem updateWorkflow_not_ok {db : DB} {u : Nat} {inst : Recipe} {p : Payload}
    (h : ∀ v, runUpdateValidation db p ≠ .ok v) :
    (updateWorkflow db u inst p).2 = db := by
  unfold updateWorkflow
  split
  next v hv => exact absurd hv (h v)
  all_goals rfl

theorem createWorkflow_fieldErrs {db : DB} {u : Nat} {p : Payload} {es : List VError}
    (h : runCreateValidation db p = .fieldErrs es) :
    createWorkflow db u p = (.fieldErrs es, db) := by
  unfold createWorkflow
  rw [h]

theorem updateWorkflow_fieldErrs {db : DB} {u : Nat} {inst : Recipe} {p : Payload}
    {es : List VError} (h : runUpdateValidation db p = .fieldErrs es) :
    updateWorkflow db u inst p = (.fieldErrs es, db) := by
  unfold updateWorkflow
  rw [h]

theorem createWorkflow_objErr {db : DB} {u : Nat} {p : Payload} {e : VError}
    (h : runCreateValidation db p = .objErr e) :
    createWorkflow db u p = (.objErr e, db) := by
  unfold createWorkflow
  rw [h]

theorem updateWorkflow_objErr {db : DB} {u : Nat} {inst : Recipe} {p : Payload}
    {e : VError} (h : runUpdateValidation db p = .objErr e) :
    updateWorkflow db u inst p = (.objErr e, db) := by
  unfold updateWorkflow
  rw [h]

theorem createRecipe_links {db : DB} {u : Nat} {v : CreateData} :
    ((createRecipe db u v).1).links =
      db.links ++ v.ingredients.map (mkLink db.nextRecipeId) := rfl

theorem createRecipe_recipes {db : DB} {u : Nat} {v : CreateData} :
    ((createRecipe db u v).1).recipes = db.recipes ++ [(createRecipe db u v).2] := rfl

theorem createRecipe_snd {db : DB} {u : Nat} {v : CreateData} :
    (createRecipe db u v).2 =
      ⟨db.nextRecipeId, u, v.name, v.image, v.text, v.cooking_time, v.tags⟩ := rfl

theorem updateRecipe_links_some {db : DB} {inst : Recipe} {v : UpdateData}
    {vis : List ValidIngredient} (hv : v.ingredients = some vis) :
    ((updateRecipe db inst v).1).links =
      db.links.filter (fun l => l.recipe != inst.id) ++ vis.map (mkLink inst.id) := by
  unfold updateRecipe
  rw [hv]

theorem mkLink_recipe_beq {rid : Nat} {vi : ValidIngredient} :
    ((mkLink rid vi).recipe == rid) = true := by
  simp [mkLink]

theorem filter_links_eq_nil {links : List IngredientRecipe} {rid : Nat}
    (h : ∀ l ∈ links, l.recipe ≠ rid) :
    links.filter (fun l => l.recipe == rid) = [] := by
  rw [List.filter_eq_nil_iff]
  intro l hl
  simp [h l hl]

theorem filter_map_mkLink {vis : List ValidIngredient} {rid : Nat} :
    (vis.map (mkLink rid)).filter (fun l => l.recipe == rid) = vis.map (mkLink rid) := by
  rw [List.filter_eq_self]
  intro l hl
  obtain ⟨vi, hvi, rfl⟩ := List.mem_map.mp hl
  exact mkLink_recipe_beq

theorem filter_ne_map_mkLink {vis : List ValidIngredient} {rid : Nat} :
    (vis.map (mkLink rid)).filter (fun l => l.recipe != rid) = [] := by
  rw [List.filter_eq_nil_iff]
  intro l hl
  obtain ⟨vi, hvi, rfl⟩ := List.mem_map.mp hl
  simp [mkLink]

theorem ingredientNotFound_mem_ingredientsErrors {db : DB} :
    ∀ {l : List RawIngredient} {e : RawIngredient}, e ∈ l →
      db.findIngredient e.id = none →
      VError.ingredientNotFound e.id ∈ ingredientsErrors db l := by
  intro l
  induction l with
  | nil => intro e he _; cases he
  | cons x rest ih =>
    intro e he hf
    rw [ingredientsErrors]
    rcases List.mem_cons.mp he with rfl | he'
    · refine List.mem_append.mpr (Or.inl ?_)
      unfold ingredientFieldErrors
      rw [hf]
      simp
    · exact List.mem_append.mpr (Or.inr (ih he' hf))

theorem tagNotFound_mem_tagsErrors {db : DB} :
    ∀ {l : List Nat} {t : Nat}, t ∈ l → ¬db.tagCatalog.contains t →
      VError.tagNotFound t ∈ tagsErrors db l := by
  intro l
  induction l with
  | nil => intro t ht _; cases ht
  | cons x rest ih =>
    intro t ht hc
    rw [tagsErrors]
    rcases List.mem_cons.mp ht with rfl | ht'
    · refine List.mem_append.mpr (Or.inl ?_)
      rw [if_neg hc]
      simp
    · exact List.mem_append.mpr (Or.inr (ih ht' hc))

theorem mem_fieldPhase_of_mem_ingredientsErrors {db : DB} {p : Payload} {prt : Bool}
    {e : VError} (h : e ∈ ingredientsErrors db (p.ingredients.getD [])) :
    e ∈ fieldPhase db p prt := by
  unfold fieldPhase
  exact List.mem_append.mpr (Or.inl (List.mem_append.mpr (Or.inr h)))

theorem mem_fieldPhase_of_mem_tagsErrors {db : DB} {p : Payload} {prt : Bool}
    {e : VError} (h : e ∈ tagsErrors db (p.tags.getD [])) :
    e ∈ fieldPhase db p prt := by
  unfold fieldPhase
  exact List.mem_append.mpr (Or.inr h)

theorem createWorkflow_fieldErrs_inv {db : DB} {u : Nat} {p : Payload}
    {es : List VError} (h : (createWorkflow db u p).1 = .fieldErrs es) :
    runCreateValidation db p = .fieldErrs es := by
  unfold createWorkflow at h
  split at h
  next v hv => cases h
  next es' hv =>
    cases h
    exact hv
  next e hv => cases h
  next hv => cases h

theorem updateWorkflow_fieldErrs_inv {db : DB} {u : Nat} {inst : Recipe} {p : Payload}
    {es : List VError} (h : (updateWorkflow db u inst p).1 = .fieldErrs es) :
    runUpdateValidation db p = .fieldErrs es := by
  unfold updateWorkflow at h
  split at h
  next v hv => cases h
  next es' hv =>
    cases h
    exact hv
  next e hv => cases h
  next hv => cases h

theorem recipeReadView_ingredients {db : DB} {viewer : Option Nat} {r : Recipe} :
    (recipeReadView db viewer r).ingredients =
      (db.links.filter (fun l => l.recipe == r.id)).map (ingredientRecipeView db) := rfl

theorem recipeReadView_is_favorited {db : DB} {viewer : Option Nat} {r : Recipe} :
    (recipeReadView db viewer r).is_favorited =
      get_boolean_value db.favorites viewer r.id := rfl

theorem ingredientRecipeView_resolved {db : DB} {l : IngredientRecipe} {ing : Ingredient}
    (h : db.findIngredient l.ingredient = some ing) :
    ingredientRecipeView db l = ⟨ing.id, ing.name, ing.measurement_unit, l.amount⟩ := by
  unfold ingredientRecipeView
  rw [h]

/-! ### Claim theorems -/

/-- C1: for every valid create payload whose ingredient list has N unique
ingredient identifiers, the persisted Recipe has exactly N
RecipeIngredientLink entries, and each link carries the amount submitted
for its ingredient identifier (the links correspond one to one, id and
amount, with the submitted entries, whose identifiers are unique). -/
theorem claim_C1_create_links_match_payload
    (db : DB) (u : Nat) (p : Payload) (v : CreateData) (ings : List RawIngredient)
    (hfresh : ∀ l ∈ db.links, l.recipe < db.nextRecipeId)
    (hok : runCreateValidation db p = .ok v)
    (hing : p.ingredients = some ings) :
    ((((createWorkflow db u p).2).links.filter
        (fun l => l.recipe == db.nextRecipeId)).map
        (fun l => (l.ingredient, l.amount)))
      = ings.map (fun e => (e.id, e.amount))
    ∧ (((createWorkflow db u p).2).links.filter
        (fun l => l.recipe == db.nextRecipeId)).length = ings.length
    ∧ (ings.map RawIngredient.id).Nodup := by
  obtain ⟨hfp, hn, him, htx, hct, htg, ings', hing', hr, hv⟩ :=
    runCreateValidation_ok_inv hok
  rw [hing] at hing'
  injection hing' with hing'
  subst hing'
  have hdb2 : (createWorkflow db u p).2 = (createRecipe db u v).1 := by
    rw [createWorkflow_ok hok]
  rw [hdb2, createRecipe_links, List.filter_append,
    filter_links_eq_nil (fun l hl => Nat.ne_of_lt (hfresh l hl)),
    filter_map_mkLink, List.nil_append]
  have hmap : ((v.ingredients.map (mkLink db.nextRecipeId)).map
      (fun l => (l.ingredient, l.amount)))
      = v.ingredients.map (fun vi => (vi.ingredient.id, vi.amount)) := by
    rw [List.map_map]
    rfl
  have hids := resolveIngredients_ids_amounts hr
  refine ⟨?_, ?_, ?_⟩
  · rw [hmap, hids]
  · rw [List.length_map]
    have hlen := congrArg List.length hids
    simpa using hlen
  · obtain ⟨ings2, ct2, hing2, hct2, hnd, -⟩ := validateObj_ok_inv hv
    rw [hing] at hing2
    injection hing2 with hing2
    rw [hing2]
    exact hnd

/-- Witness for C1: the concrete valid payload `pGood` (one ingredient,
id 3, amount 2) creates exactly one link carrying amount 2. -/
theorem claim_C1_create_links_match_payload_witness :
    (∀ l ∈ db0.links, l.recipe < db0.nextRecipeId) ∧
      runCreateValidation db0 pGood = .ok vGood ∧
      pGood.ingredients = some [⟨3, 2⟩] ∧
      ((((createWorkflow db0 7 pGood).2).links.filter
          (fun l => l.recipe == db0.nextRecipeId)).map
          (fun l => (l.ingredient, l.amount)))
        = [((3 : Nat), (2 : Int))] :=
  ⟨by decide, by decide, by decide, by
    have h := (claim_C1_create_links_match_payload db0 7 pGood vGood [⟨3, 2⟩]
      (by decide) (by decide) (by decide)).1
    simpa using h⟩

/-- C2 counterexample: `pDup` repeats ingredient id 3 but its first entry
has amount 0, and field-level validation (which includes the amount check)
runs before the object-level `validate` that detects duplicates, so the
workflow rejects with the invalid-amount field error — not with the
duplicate-ingredient error the claim promises for every amount. -/
theorem claim_C2_duplicate_error_cex :
    ¬(((pDup.ingredients.getD []).map RawIngredient.id).Nodup) ∧
      (∃ e ∈ pDup.ingredients.getD [], e.amount < 1) ∧
      (createWorkflow db0 7 pDup).1 = .fieldErrs [.invalidAmount] ∧
      (createWorkflow db0 7 pDup).1 ≠ .objErr .duplicateIngredient ∧
      VError.duplicateIngredient ∉ [VError.invalidAmount] := by
  decide

/-- C2 (amended): a payload with a repeated ingredient identifier is always
rejected, whatever the amounts; and whenever every field-level check passes
(in particular all amounts are at least 1), the rejection carries the
duplicate-ingredient error, independent of the amount check and of
cooking_time. -/
theorem claim_C2_duplicate_always_rejected
    (db : DB) (u : Nat) (inst : Recipe) (p : Payload) (ings : List RawIngredient)
    (hing : p.ingredients = some ings)
    (hdup : ¬(ings.map RawIngredient.id).Nodup) :
    (∀ v, runCreateValidation db p ≠ .ok v) ∧
      (∀ v, runUpdateValidation db p ≠ .ok v) ∧
      (fieldPhase db p false = [] →
        (createWorkflow db u p).1 = .objErr .duplicateIngredient) ∧
      (fieldPhase db p true = [] →
        (updateWorkflow db u inst p).1 = .objErr .duplicateIngredient) := by
  refine ⟨?_, ?_, ?_, ?_⟩
  · intro v hok
    obtain ⟨-, -, -, -, -, -, ings2, hing2, -, hv⟩ := runCreateValidation_ok_inv hok
    obtain ⟨ings3, ct3, hing3, -, hnd, -⟩ := validateObj_ok_inv hv
    rw [hing] at hing3
    injection hing3 with hing3
    rw [← hing3] at hnd
    exact hdup hnd
  · intro v hok
    obtain ⟨-, -, -, -, -, -, hv, -⟩ := runUpdateValidation_ok_inv hok
    obtain ⟨ings3, ct3, hing3, -, hnd, -⟩ := validateObj_ok_inv hv
    rw [hing] at hing3
    injection hing3 with hing3
    rw [← hing3] at hnd
    exact hdup hnd
  · intro hfp
    rw [createWorkflow_objErr (runCreateValidation_dup hfp hing hdup)]
  · intro hfp
    rw [updateWorkflow_objErr (runUpdateValidation_dup hfp hing hdup)]

/-- Witness for the amended C2: `pDupZero` repeats id 3 with valid amounts,
so every field-level check passes and the create workflow reports the
duplicate-ingredient error. -/
theorem claim_C2_duplicate_always_rejected_witness :
    pDupZero.ingredients = some [⟨3, 2⟩, ⟨3, 1⟩] ∧
      ¬((([⟨3, 2⟩, ⟨3, 1⟩] : List RawIngredient).map RawIngredient.id).Nodup) ∧
      fieldPhase db0 pDupZero false = [] ∧
      (createWorkflow db0 7 pDupZero).1 = .objErr .duplicateIngredient :=
  ⟨by decide, by decide, by decide,
    (claim_C2_duplicate_always_rejected db0 7 tea pDupZero [⟨3, 2⟩, ⟨3, 1⟩]
      (by decide) (by decide)).2.2.1 (by decide)⟩

/-- C3: an update whose payload contains "ingredients" replaces the
recipe's link set wholesale (delete-then-insert): afterwards that recipe's
links are exactly the batch built from the new payload, links of other
recipes are untouched, and no pre-existing link whose ingredient was
removed survives. -/
theorem claim_C3_update_replaces_links
    (db : DB) (u : Nat) (inst : Recipe) (p : Payload) (v : UpdateData)
    (vis : List ValidIngredient)
    (hok : runUpdateValidation db p = .ok v)
    (hv : v.ingredients = some vis) :
    ((updateWorkflow db u inst p).2).links.filter (fun l => l.recipe == inst.id)
        = vis.map (mkLink inst.id)
    ∧ ((updateWorkflow db u inst p).2).links.filter (fun l => l.recipe != inst.id)
        = db.links.filter (fun l => l.recipe != inst.id)
    ∧ ∀ l ∈ db.links, l.recipe = inst.id →
        l.ingredient ∉ vis.map (fun vi => vi.ingredient.id) →
        l ∉ ((updateWorkflow db u inst p).2).links := by
  have hdb2 : (updateWorkflow db u inst p).2 = (updateRecipe db inst v).1 := by
    rw [updateWorkflow_ok hok]
  rw [hdb2, updateRecipe_links_some hv]
  refine ⟨?_, ?_, ?_⟩
  · rw [List.filter_append, filter_map_mkLink]
    have h0 : (db.links.filter (fun l => l.recipe != inst.id)).filter
        (fun l => l.recipe == inst.id) = [] := by
      rw [List.filter_eq_nil_iff]
      intro l hl
      have hne := (List.mem_filter.mp hl).2
      simp_all
    rw [h0, List.nil_append]
  · rw [List.filter_append, filter_ne_map_mkLink, List.append_nil]
    rw [List.filter_eq_self.mpr (fun l hl => (List.mem_filter.mp hl).2)]
  · intro l hl hrec hning hmem
    rcases List.mem_append.mp hmem with hmem | hmem
    · have hne := (List.mem_filter.mp hmem).2
      simp [hrec] at hne
    · obtain ⟨vi, hvi, heq⟩ := List.mem_map.mp hmem
      apply hning
      rw [← heq]
      exact List.mem_map.mpr ⟨vi, hvi, rfl⟩

/-- Witness for C3: updating `tea` (which has a Sugar link of amount 2)
with `pNewIngs` leaves exactly the one new link of amount 7. -/
theorem claim_C3_update_replaces_links_witness :
    runUpdateValidation db1 pNewIngs = .ok vNew ∧
      vNew.ingredients = some [⟨sugar, 7⟩] ∧
      ((updateWorkflow db1 7 tea pNewIngs).2).links.filter
          (fun l => l.recipe == tea.id)
        = [⟨tea.id, 3, 7⟩] :=
  ⟨by decide, by decide, by
    have h := (claim_C3_update_replaces_links db1 7 tea pNewIngs vNew [⟨sugar, 7⟩]
      (by decide) (by decide)).1
    simpa using h⟩

/-- C4 (code-bug evidence): an update payload carrying only "name" never
succeeds: the serializer's `validate` iterates the absent raw
"ingredients" value (a `TypeError`, modelled `.crash`), so the update
workflow crashes and the store is untouched — contradicting the claim (and
spec) that a name-only partial update succeeds with links and tags
unchanged. -/
theorem claim_C4_name_only_update_crashes :
    pNameOnly.ingredients = none ∧ pNameOnly.tags = none ∧
      validateObj pNameOnly = .crash ∧
      updateWorkflow db1 7 tea pNameOnly = (.crash, db1) := by
  decide

/-- C5: a payload that fails validation causes no persistence at all: when
neither validation pass succeeds, both the create workflow and the update
workflow return the store unchanged. -/
theorem claim_C5_no_persistence_on_failure
    (db : DB) (u : Nat) (inst : Recipe) (p : Payload)
    (hc : ∀ v, runCreateValidation db p ≠ .ok v)
    (hu : ∀ v, runUpdateValidation db p ≠ .ok v) :
    (createWorkflow db u p).2 = db ∧ (updateWorkflow db u inst p).2 = db :=
  ⟨createWorkflow_not_ok hc, updateWorkflow_not_ok hu⟩

/-- Witness for C5: `pDup` fails validation (amount 0), and both workflows
leave the store exactly as it was. -/
theorem claim_C5_no_persistence_on_failure_witness :
    runCreateValidation db0 pDup = .fieldErrs [.invalidAmount] ∧
      ((createWorkflow db0 7 pDup).2 = db0 ∧ (updateWorkflow db0 7 tea pDup).2 = db0) :=
  ⟨by decide,
    claim_C5_no_persistence_on_failure db0 7 tea pDup
      (by
        intro v h
        have hx : runCreateValidation db0 pDup = .fieldErrs [.invalidAmount] := by decide
        rw [hx] at h
        cases h)
      (by
        intro v h
        have hx : runUpdateValidation db0 pDup = .fieldErrs [.invalidAmount] := by decide
        rw [hx] at h
        cases h)⟩

/-- C6: the workflow rejects with the invalid-amount error exactly when
some submitted ingredient entry has amount < 1 (`validate_amount` raises
iff `value < 1`), on create and on partial update alike. -/
theorem claim_C6_invalid_amount_iff
    (db : DB) (u : Nat) (inst : Recipe) (p : Payload) (ings : List RawIngredient)
    (hing : p.ingredients = some ings) :
    ((∃ es, (createWorkflow db u p).1 = .fieldErrs es ∧ VError.invalidAmount ∈ es) ↔
        ∃ e ∈ ings, e.amount < 1) ∧
      ((∃ es, (updateWorkflow db u inst p).1 = .fieldErrs es ∧
          VError.invalidAmount ∈ es) ↔
        ∃ e ∈ ings, e.amount < 1) := by
  have hmemf : ∀ prt : Bool,
      VError.invalidAmount ∈ fieldPhase db p prt ↔ ∃ e ∈ ings, e.amount < 1 := by
    intro prt
    rw [invalidAmount_mem_fieldPhase, hing]
    simp
  constructor
  · constructor
    · rintro ⟨es, hout, hmem⟩
      have hfp := runCreateValidation_fieldErrs_inv (createWorkflow_fieldErrs_inv hout)
      rw [← hfp] at hmem
      exact (hmemf false).mp hmem
    · rintro ⟨e, he, ha⟩
      have hmem := (hmemf false).mpr ⟨e, he, ha⟩
      cases hfc : fieldPhase db p false with
      | nil =>
        rw [hfc] at hmem
        cases hmem
      | cons e' es' =>
        refine ⟨e' :: es', ?_, ?_⟩
        · rw [@createWorkflow_fieldErrs db u p (e' :: es')
            (runCreateValidation_fieldErrs_fwd hfc)]
        · rw [← hfc]
          exact hmem
  · constructor
    · rintro ⟨es, hout, hmem⟩
      have hfp := runUpdateValidation_fieldErrs_inv (updateWorkflow_fieldErrs_inv hout)
      rw [← hfp] at hmem
      exact (hmemf true).mp hmem
    · rintro ⟨e, he, ha⟩
      have hmem := (hmemf true).mpr ⟨e, he, ha⟩
      cases hfc : fieldPhase db p true with
      | nil =>
        rw [hfc] at hmem
        cases hmem
      | cons e' es' =>
        refine ⟨e' :: es', ?_, ?_⟩
        · rw [@updateWorkflow_fieldErrs db u inst p (e' :: es')
            (runUpdateValidation_fieldErrs_fwd hfc)]
        · rw [← hfc]
          exact hmem

/-- Witness for C6 at `pDup`, whose first entry has amount 0. -/
theorem claim_C6_invalid_amount_iff_witness :
    pDup.ingredients = some [⟨3, 0⟩, ⟨3, 2⟩] ∧
      ((∃ es, (createWorkflow db0 7 pDup).1 = .fieldErrs es ∧
          VError.invalidAmount ∈ es) ↔
        ∃ e ∈ ([⟨3, 0⟩, ⟨3, 2⟩] : List RawIngredient), e.amount < 1) :=
  ⟨by decide,
    (claim_C6_invalid_amount_iff db0 7 tea pDup [⟨3, 0⟩, ⟨3, 2⟩] (by decide)).1⟩

/-- C7 counterexample: `pDupZero` has cooking_time 0 (strictly below 1) but
also repeats an ingredient identifier; since the duplicate check precedes
the duration check inside `validate`, the workflow rejects with the
duplicate-ingredient error and not with the invalid-duration error, so the
claimed "if" direction fails. -/
theorem claim_C7_duration_iff_cex :
    pDupZero.cooking_time = some 0 ∧ ((0 : Int) < 1) ∧
      (createWorkflow db0 7 pDupZero).1 = .objErr .duplicateIngredient ∧
      (createWorkflow db0 7 pDupZero).1 ≠ .objErr .invalidDuration := by
  decide

/-- C7 (amended): for a payload that passes every field-level check and
repeats no ingredient identifier, the authoring workflow — create and
update alike — rejects it with the invalid-duration error exactly when
cooking_time < 1; a duplicate identifier masks the duration error because
the duplicate check runs first. -/
theorem claim_C7_duration_iff_amended
    (db : DB) (u : Nat) (inst : Recipe) (p : Payload) (ct : Int)
    (ings : List RawIngredient)
    (hpi : p.ingredients = some ings)
    (hpc : p.cooking_time = some ct)
    (hnd : (ings.map RawIngredient.id).Nodup) :
    (fieldPhase db p false = [] →
      ((createWorkflow db u p).1 = .objErr .invalidDuration ↔ ct < 1)) ∧
    (fieldPhase db p true = [] →
      ((updateWorkflow db u inst p).1 = .objErr .invalidDuration ↔ ct < 1)) := by
  constructor
  · intro hfp
    obtain ⟨hreq, hie, -⟩ := fieldPhase_nil_parts hfp
    obtain ⟨⟨nm, hn⟩, ⟨im, him⟩, ⟨tx, htx⟩, -, ⟨tg, htg⟩, -⟩ :=
      requiredErrors_nil (hreq rfl)
    rw [hpi] at hie
    obtain ⟨vis, hr⟩ := ingredientsErrors_nil_resolve (by simpa using hie)
    have hv := validateObj_eval hpi hpc hnd
    obtain ⟨pn, pim, pt, pct, ptg, ping⟩ := p
    dsimp only at hn him htx hpc htg hpi
    subst hn him htx hpc htg hpi
    have hrun : runCreateValidation db
        ⟨some nm, some im, some tx, some ct, some tg, some ings⟩
        = match validateObj
            (⟨some nm, some im, some tx, some ct, some tg, some ings⟩ : Payload) with
          | .ok => .ok ⟨nm, im, tx, ct, tg, vis⟩
          | .err e => .objErr e
          | .crash => .crash := by
      simp only [runCreateValidation, createObjectStage, hfp, hr]
    by_cases hlt : ct < 1
    · rw [hv, if_pos hlt] at hrun
      rw [createWorkflow_objErr hrun]
      simp [hlt]
    · rw [hv, if_neg hlt] at hrun
      rw [createWorkflow_ok hrun]
      simp [hlt]
  · intro hufp
    obtain ⟨-, hie, -⟩ := fieldPhase_nil_parts hufp
    rw [hpi] at hie
    obtain ⟨vis, hr⟩ := ingredientsErrors_nil_resolve (by simpa using hie)
    have hv := validateObj_eval hpi hpc hnd
    obtain ⟨pn, pim, pt, pct, ptg, ping⟩ := p
    dsimp only at hpi
    subst hpi
    have hrun : runUpdateValidation db ⟨pn, pim, pt, pct, ptg, some ings⟩
        = match validateObj (⟨pn, pim, pt, pct, ptg, some ings⟩ : Payload) with
          | .ok => .ok ⟨pn, pim, pt, pct, ptg, some vis⟩
          | .err e => .objErr e
          | .crash => .crash := by
      simp only [runUpdateValidation, updateObjectStage, hufp, hr]
    by_cases hlt : ct < 1
    · rw [hv, if_pos hlt] at hrun
      rw [updateWorkflow_objErr hrun]
      simp [hlt]
    · rw [hv, if_neg hlt] at hrun
      rw [updateWorkflow_ok hrun]
      simp [hlt]

/-- Witness for the amended C7: `pZeroTime` (cooking_time 0, no duplicate,
clean field checks) is rejected with the invalid-duration error on both
the create path and the update path. -/
theorem claim_C7_duration_iff_amended_witness :
    pZeroTime.ingredients = some [⟨3, 2⟩] ∧ pZeroTime.cooking_time = some 0 ∧
      (([⟨3, 2⟩] : List RawIngredient).map RawIngredient.id).Nodup ∧
      fieldPhase db0 pZeroTime false = [] ∧ fieldPhase db0 pZeroTime true = [] ∧
      ((createWorkflow db0 7 pZeroTime).1 = .objErr .invalidDuration ↔ (0 : Int) < 1) ∧
      ((updateWorkflow db0 7 tea pZeroTime).1 = .objErr .invalidDuration ↔ (0 : Int) < 1) :=
  ⟨by decide, by decide, by decide, by decide, by decide,
    (claim_C7_duration_iff_amended db0 7 tea pZeroTime 0 [⟨3, 2⟩]
      (by decide) (by decide) (by decide)).1 (by decide),
    (claim_C7_duration_iff_amended db0 7 tea pZeroTime 0 [⟨3, 2⟩]
      (by decide) (by decide) (by decide)).2 (by decide)⟩

/-- C8: a payload referencing an ingredient identifier that does not
resolve in the Ingredient catalog, or a tag identifier that does not
resolve in the Tag catalog, is rejected with a field-level not-found error
and nothing is persisted, on create and on update. -/
theorem claim_C8_unresolvable_rejected
    (db : DB) (u : Nat) (inst : Recipe) (p : Payload)
    (h : (∃ ings, p.ingredients = some ings ∧
            ∃ e ∈ ings, db.findIngredient e.id = none) ∨
         (∃ ts, p.tags = some ts ∧ ∃ t ∈ ts, ¬db.tagCatalog.contains t)) :
    (∃ es, (createWorkflow db u p).1 = .fieldErrs es ∧
        ∃ e ∈ es, (∃ i, e = .ingredientNotFound i) ∨ ∃ t, e = .tagNotFound t) ∧
      (createWorkflow db u p).2 = db ∧
      (∃ es, (updateWorkflow db u inst p).1 = .fieldErrs es ∧
        ∃ e ∈ es, (∃ i, e = .ingredientNotFound i) ∨ ∃ t, e = .tagNotFound t) ∧
      (updateWorkflow db u inst p).2 = db := by
  have hmem : ∃ e0, e0 ∈ fieldPhase db p false ∧ e0 ∈ fieldPhase db p true ∧
      ((∃ i, e0 = .ingredientNotFound i) ∨ ∃ t, e0 = .tagNotFound t) := by
    rcases h with ⟨ings, hing, e, he, hf⟩ | ⟨ts, hts, t, ht, hc⟩
    · refine ⟨.ingredientNotFound e.id, ?_, ?_, Or.inl ⟨e.id, rfl⟩⟩ <;>
      · apply mem_fieldPhase_of_mem_ingredientsErrors
        rw [hing]
        simpa using ingredientNotFound_mem_ingredientsErrors he hf
    · refine ⟨.tagNotFound t, ?_, ?_, Or.inr ⟨t, rfl⟩⟩ <;>
      · apply mem_fieldPhase_of_mem_tagsErrors
        rw [hts]
        simpa using tagNotFound_mem_tagsErrors ht hc
  obtain ⟨e0, hmc, hmu, hprop⟩ := hmem
  have hcne : ∀ v, runCreateValidation db p ≠ .ok v := by
    intro v hok
    obtain ⟨hfp, -⟩ := runCreateValidation_ok_inv hok
    rw [hfp] at hmc
    cases hmc
  have hune : ∀ v, runUpdateValidation db p ≠ .ok v := by
    intro v hok
    obtain ⟨hfp, -⟩ := runUpdateValidation_ok_inv hok
    rw [hfp] at hmu
    cases hmu
  refine ⟨?_, createWorkflow_not_ok hcne, ?_, updateWorkflow_not_ok hune⟩
  · cases hfc : fieldPhase db p false with
    | nil =>
      rw [hfc] at hmc
      cases hmc
    | cons e' es' =>
      refine ⟨e' :: es', ?_, ⟨e0, ?_, hprop⟩⟩
      · rw [@createWorkflow_fieldErrs db u p (e' :: es')
          (runCreateValidation_fieldErrs_fwd hfc)]
      · rw [← hfc]
        exact hmc
  · cases hfu : fieldPhase db p true with
    | nil =>
      rw [hfu] at hmu
      cases hmu
    | cons e' es' =>
      refine ⟨e' :: es', ?_, ⟨e0, ?_, hprop⟩⟩
      · rw [@updateWorkflow_fieldErrs db u inst p (e' :: es')
          (runUpdateValidation_fieldErrs_fwd hfu)]
      · rw [← hfu]
        exact hmu

/-- Witness for C8: `pBadIng` references ingredient id 9, absent from the
catalog of `db0`. -/
theorem claim_C8_unresolvable_rejected_witness :
    db0.findIngredient 9 = none ∧
      ((∃ es, (createWorkflow db0 7 pBadIng).1 = .fieldErrs es ∧
          ∃ e ∈ es, (∃ i, e = .ingredientNotFound i) ∨ ∃ t, e = .tagNotFound t) ∧
        (createWorkflow db0 7 pBadIng).2 = db0 ∧
        (∃ es, (updateWorkflow db0 7 tea pBadIng).1 = .fieldErrs es ∧
          ∃ e ∈ es, (∃ i, e = .ingredientNotFound i) ∨ ∃ t, e = .tagNotFound t) ∧
        (updateWorkflow db0 7 tea pBadIng).2 = db0) :=
  ⟨by decide,
    claim_C8_unresolvable_rejected db0 7 tea pBadIng
      (Or.inl ⟨[⟨9, 2⟩], by decide, ⟨9, 2⟩, by decide, by decide⟩)⟩

/-- C9: the response of a successful create or update is the Reference
Projection of the persisted recipe taken over the post-write store — the
created recipe is persisted, its rendered ingredient entries carry the
catalog name and unit plus the submitted amount, and the viewer-relative
flag comes from the favorites relation — not an echo of the input
payload. -/
theorem claim_C9_response_is_read_projection
    (db : DB) (u : Nat) (inst : Recipe) (p : Payload)
    (hfresh : ∀ l ∈ db.links, l.recipe < db.nextRecipeId) :
    (∀ v, runCreateValidation db p = .ok v →
      (createWorkflow db u p).1 =
          .ok (recipeReadView (createWorkflow db u p).2 (some u)
            (createRecipe db u v).2)
        ∧ (createRecipe db u v).2 ∈ ((createWorkflow db u p).2).recipes
        ∧ (recipeReadView (createWorkflow db u p).2 (some u)
              (createRecipe db u v).2).ingredients
            = v.ingredients.map (fun vi =>
                ⟨vi.ingredient.id, vi.ingredient.name,
                  vi.ingredient.measurement_unit, vi.amount⟩)
        ∧ (recipeReadView (createWorkflow db u p).2 (some u)
              (createRecipe db u v).2).is_favorited
            = get_boolean_value db.favorites (some u) db.nextRecipeId) ∧
    (∀ v, runUpdateValidation db p = .ok v →
      (updateWorkflow db u inst p).1 =
        .ok (recipeReadView (updateWorkflow db u inst p).2 (some u)
          (updateRecipe db inst v).2)) := by
  constructor
  · intro v hok
    obtain ⟨hfp, hn, him, htx, hct, htg, ings, hing, hr, hvo⟩ :=
      runCreateValidation_ok_inv hok
    have hw := @createWorkflow_ok db u p v hok
    refine ⟨?_, ?_, ?_, ?_⟩
    · rw [hw]
    · rw [hw]
      rw [createRecipe_recipes]
      exact List.mem_append.mpr (Or.inr (by simp))
    · rw [hw, recipeReadView_ingredients]
      rw [show (createRecipe db u v).2.id = db.nextRecipeId from rfl]
      rw [show ((createRecipe db u v).1).links
            = db.links ++ v.ingredients.map (mkLink db.nextRecipeId) from rfl]
      rw [List.filter_append,
        filter_links_eq_nil (fun l hl => Nat.ne_of_lt (hfresh l hl)),
        filter_map_mkLink, List.nil_append, List.map_map]
      apply List.map_congr_left
      intro vi hvi
      have hfind := resolveIngredients_mem_find hr vi hvi
      show ingredientRecipeView (createRecipe db u v).1 (mkLink db.nextRecipeId vi) = _
      exact ingredientRecipeView_resolved hfind
    · rw [hw, recipeReadView_is_favorited]
      rfl
  · intro v hok
    rw [@updateWorkflow_ok db u inst p v hok]

/-- Witness for C9 at the concrete valid payload `pGood`. -/
theorem claim_C9_response_is_read_projection_witness :
    (∀ l ∈ db0.links, l.recipe < db0.nextRecipeId) ∧
      runCreateValidation db0 pGood = .ok vGood ∧
      (createWorkflow db0 7 pGood).1 =
        .ok (recipeReadView (createWorkflow db0 7 pGood).2 (some 7)
          (createRecipe db0 7 vGood).2) :=
  ⟨by decide, by decide,
    ((claim_C9_response_is_read_projection db0 7 tea pGood (by decide)).1
      vGood (by decide)).1⟩

/-- C10: the serializer's `validate` is only defined for payloads whose raw
data carries "ingredients" and whose validated data carries "cooking_time":
with "ingredients" absent it iterates a missing value (modelled `.crash`),
with "cooking_time" absent it indexes a missing key after the duplicate
scan, and in every such case neither the create nor the update validation
ever accepts the payload. -/
theorem claim_C10_partial_payload_never_accepted
    (p : Payload) (h : p.ingredients = none ∨ p.cooking_time = none) :
    validateObj p ≠ .ok ∧
      (∀ db v, runCreateValidation db p ≠ .ok v) ∧
      (∀ db v, runUpdateValidation db p ≠ .ok v) ∧
      (p.ingredients = none → validateObj p = .crash) ∧
      (∀ ings, p.ingredients = some ings →
        checkDuplicates (ings.map RawIngredient.id) [] = false →
        p.cooking_time = none → validateObj p = .crash) := by
  have hne : validateObj p ≠ .ok := by
    intro hv
    obtain ⟨ings, ct, hing, hct, -, -⟩ := validateObj_ok_inv hv
    rcases h with h | h
    · rw [h] at hing
      cases hing
    · rw [h] at hct
      cases hct
  refine ⟨hne, ?_, ?_, ?_, ?_⟩
  · intro db v hok
    obtain ⟨-, -, -, -, -, -, ings, -, -, hvo⟩ := runCreateValidation_ok_inv hok
    exact hne hvo
  · intro db v hok
    obtain ⟨-, -, -, -, -, -, hvo, -⟩ := runUpdateValidation_ok_inv hok
    exact hne hvo
  · intro hing
    unfold validateObj
    rw [hing]
  · intro ings hing hcd hct
    simp [validateObj, hing, hcd, hct]

/-- Witness for C10: the name-only payload `pNameOnly` crashes `validate`
and is never accepted. -/
theorem claim_C10_partial_payload_never_accepted_witness :
    (pNameOnly.ingredients = none ∨ pNameOnly.cooking_time = none) ∧
      validateObj pNameOnly ≠ .ok ∧ validateObj pNameOnly = .crash :=
  ⟨Or.inl rfl,
    (claim_C10_partial_payload_never_accepted pNameOnly (Or.inl rfl)).1,
    (claim_C10_partial_payload_never_accepted pNameOnly (Or.inl rfl)).2.2.2.1 rfl⟩

end Culinary
